import Mathlib

/-! Transaction watcher of `cmd/app/main.go`.

A shallow embedding of the watch loop of `run` (`src/cmd/app/main.go`, lines 68-168).

* The body of the `select` case (lines 71-165) is `runBody`: one transaction in, the list of
  log lines it emits out (or a Go run-time panic).
* The endless `for` loop over the transaction channel is `run`, a fold of `runBody` over the
  transactions delivered by the feed.
* Every `logrus` call of the source is one constructor of `LogEvent`; the arguments of the
  format string are the fields of the constructor.
* The slice primitives of the cell library (`LoadUInt`, `LoadCoins`, `LoadAddr`,
  `LoadMaybeRef`, `LoadStringSnake`) are not part of the repository; they follow section 4.1 of
  the specification.
* The renderings of the libraries (`Address.String`, `Coins.String`, `strconv.FormatFloat`) are
  fields of `Env`; the example environment `exEnv` fixes one of each for the concrete inputs.
-/

namespace TonWatcher

/-! ## Cells and slices -/

/-- Modelled from the spec: the typed failures of the slice decoder (section 7). -/
inductive DecodeError where
  | OutOfData
  | NoMoreReferences
  | NotByteAligned
  | UnsupportedAddressFormat
  deriving DecidableEq, Repr

/-- Modelled from the spec: a chunk of the payload tree (section 3), an ordered bit sequence
and ordered references to child chunks. -/
inductive Cell where
  | mk (bits : List Bool) (refs : List Cell) : Cell
  deriving Repr

/-- Modelled from the spec: a cursor into one chunk (section 3), kept as the bits and the
references that are still unread. -/
structure Slice where
  bits : List Bool
  refs : List Cell
  deriving Repr

/-- Modelled from the spec: an address as decoded from a slice (section 3), workchain id and
256-bit account id. -/
structure Address where
  workchain : Int
  accountId : Nat
  deriving DecidableEq, Repr

deriving instance DecidableEq for Except

/-- `Cell.BeginParse`: a fresh slice at bit offset 0 and reference index 0. -/
def Cell.BeginParse : Cell → Slice
  | .mk bits refs => { bits := bits, refs := refs }

/-- Big-endian (most significant bit first) value of a bit sequence. -/
def bitsToNat (bs : List Bool) : Nat :=
  bs.foldl (fun acc b => 2 * acc + (if b then 1 else 0)) 0

/-- Modelled from the spec: the bit reader shared by the typed primitives of section 4.1. Reads
`sz` bits most-significant-bit first and advances the cursor by `sz`; fails with `OutOfData`
when fewer bits remain in the current chunk. -/
def Slice.readBits (s : Slice) (sz : Nat) : Except DecodeError (Nat × Slice) :=
  if s.bits.length < sz then .error .OutOfData
  else .ok (bitsToNat (s.bits.take sz), { s with bits := s.bits.drop sz })

/-- Modelled from the spec: the library primitive `LoadUInt` (section 4.1, `loadUint`), called
by `run` with the widths 32 and 64. -/
def Slice.LoadUInt (s : Slice) (sz : Nat) : Except DecodeError (Nat × Slice) :=
  s.readBits sz

/-- Modelled from the spec: the library primitive `LoadCoins` (section 4.1, `loadCoins`). Reads
a 4-bit length `L`; the value is `0` when `L = 0`, otherwise the big-endian value of the next
`8 * L` bits. -/
def Slice.LoadCoins (s : Slice) : Except DecodeError (Nat × Slice) :=
  match s.readBits 4 with
  | .error e => .error e
  | .ok (l, s1) => if l = 0 then .ok (0, s1) else s1.readBits (8 * l)

/-- Modelled from the spec: the library primitive `LoadAddr` (section 4.1, `loadAddress`). Reads
a 2-bit tag that must be the standard-address tag `0b10`, a signed 8-bit workchain id and a
256-bit account id. -/
def Slice.LoadAddr (s : Slice) : Except DecodeError (Address × Slice) :=
  match s.readBits 2 with
  | .error e => .error e
  | .ok (tag, s1) =>
    if tag ≠ 2 then .error .UnsupportedAddressFormat
    else
      match s1.readBits 8 with
      | .error e => .error e
      | .ok (wc, s2) =>
        match s2.readBits 256 with
        | .error e => .error e
        | .ok (acc, s3) =>
          .ok ({ workchain := if wc < 128 then (wc : Int) else (wc : Int) - 256,
                 accountId := acc }, s3)

/-- Modelled from the spec: the library primitive `LoadMaybeRef` (section 4.1, `loadMaybeRef`).
Reads one bit; on `0` there is no reference and no reference slot is consumed; on `1` the next
child reference is consumed and a fresh slice on the referenced chunk is returned. -/
def Slice.LoadMaybeRef (s : Slice) : Except DecodeError (Option Slice × Slice) :=
  match s.bits with
  | [] => .error .OutOfData
  | false :: bs => .ok (none, { s with bits := bs })
  | true :: bs =>
    match s.refs with
    | [] => .error .NoMoreReferences
    | c :: rs => .ok (some c.BeginParse, { bits := bs, refs := rs })

/-- Cut a bit sequence into `k` bytes of 8 bits. -/
def bitsToBytes : Nat → List Bool → List Nat
  | 0, _ => []
  | k + 1, bs => bitsToNat (bs.take 8) :: bitsToBytes k (bs.drop 8)

mutual
/-- Bytes of a snake chain that starts at a whole chunk. -/
def Cell.snake : Cell → Except DecodeError (List Nat)
  | .mk bits refs =>
    if bits.length % 8 ≠ 0 then .error .NotByteAligned
    else
      match snakeLast refs with
      | .error e => .error e
      | .ok tl => .ok (bitsToBytes (bits.length / 8) bits ++ tl)
/-- Continue a snake chain through the trailing (last) reference of a chunk, if there is one. -/
def snakeLast : List Cell → Except DecodeError (List Nat)
  | [] => .ok []
  | [c] => c.snake
  | _ :: c :: rest => snakeLast (c :: rest)
end

/-- Text of a byte sequence, passed through without validation: one character per byte. -/
def bytesToString (bs : List Nat) : String :=
  String.mk (bs.map Char.ofNat)

/-- Modelled from the spec: the library primitive `LoadStringSnake` (section 4.1,
`loadSnakeString`). Reads all remaining bits of the current chunk as bytes (`NotByteAligned`
when their number is not a multiple of 8), then follows the trailing reference of each chunk
until a chunk has none. -/
def Slice.LoadStringSnake (s : Slice) : Except DecodeError String :=
  if s.bits.length % 8 ≠ 0 then .error .NotByteAligned
  else
    match snakeLast s.refs with
    | .error e => .error e
    | .ok tl => .ok (bytesToString (bitsToBytes (s.bits.length / 8) s.bits ++ tl))

/-! ## The notification amount as a floating-point number

Line 130 is `amountFmt := strconv.FormatFloat(float64(amount)/app.Billion, 'f', -1, 32)`. The
conversion `float64(amount)` and the division by `Billion` are arithmetic of the source and are
evaluated here exactly, with integers only: a double-precision value is a pair of a mantissa and
a binary exponent, and both operations round to nearest, ties to even. The text that
`strconv.FormatFloat` makes of the quotient is a rendering of the standard library and is a
field of `Env`, like the renderings of addresses and of declared amounts. -/

/-- The constant `Billion` of `internal/app/config.go`. -/
def Billion : Nat := 1000000000

/-- Number of halvings until the argument drops below 2. -/
def log2Fuel : Nat → Nat → Nat
  | 0, _ => 0
  | f + 1, n => if n < 2 then 0 else 1 + log2Fuel f (n / 2)

/-- Floor of the binary logarithm (0 at 0). -/
def ilog2 (n : Nat) : Nat := log2Fuel n n

/-- Round the positive fraction `num / den` to a binary floating-point value with `p`
significant bits, to nearest, ties to even (the exponent range is not limited). -/
def roundNE (p : Nat) (num den : Nat) : Nat × Int :=
  let k : Int := (ilog2 num : Int) - (ilog2 den : Int)
  let e1 : Int := k - ((p : Int) - 1)
  let e : Int :=
    if num * 2 ^ (-e1).toNat / (den * 2 ^ e1.toNat) < 2 ^ (p - 1) then e1 - 1 else e1
  let n := num * 2 ^ (-e).toNat
  let d := den * 2 ^ e.toNat
  let m0 := n / d
  let r := n % d
  let m := if 2 * r > d ∨ (2 * r = d ∧ m0 % 2 = 1) then m0 + 1 else m0
  if m = 2 ^ p then (2 ^ (p - 1), e + 1) else (m, e)

/-- Non-negative double-precision value `mant * 2 ^ exp`; zero has `mant = 0`. -/
structure Float64 where
  mant : Nat
  exp : Int
  deriving DecidableEq, Repr

/-- The double `float64(n)/app.Billion` for an integer `n`: the conversion to double precision
and the division each round to nearest, ties to even. -/
def float64DivBillion (n : Nat) : Float64 :=
  if n = 0 then { mant := 0, exp := 0 }
  else
    let x := roundNE 53 n 1
    let q := roundNE 53 (x.1 * 2 ^ x.2.toNat) (Billion * 2 ^ (-x.2).toNat)
    { mant := q.1, exp := q.2 }

/-- Line 130, `float64(amount)/app.Billion`. The variable `amount` is a Go `uint64`, so only
the low 64 bits of the decoded value exist. -/
def amountFloat (amount : Nat) : Float64 :=
  float64DivBillion (amount % 2 ^ 64)

/-! ## Transactions -/

/-- Internal message (`tlb.InternalMessage`): the fields read by `run`. -/
structure InternalMessage where
  SrcAddr : Address
  Amount : Nat
  Body : Option Cell
  deriving Repr

/-- Incoming message (`tlb.Message`): its `MsgType` together with the payload of that type. -/
inductive Message where
  | Internal (m : InternalMessage)
  | ExternalIn
  | ExternalOut
  deriving Repr

/-- Transaction (`tlb.Transaction`): `IO.In` is a pointer that is nil when the transaction has
no incoming message. -/
structure Transaction where
  In : Option Message
  deriving Repr

/-- Values fixed before the loop starts, and the library renderings `run` calls. -/
structure Env where
  /-- Line 61: `id := uuid.New().String()`, the expected token. -/
  id : String
  /-- Line 32: `jettonWallet`, parsed from `app.JettonWalletAddr`. -/
  jettonWallet : Address
  /-- The library rendering `Address.String()`. -/
  addrString : Address → String
  /-- The library rendering `Coins.String()` of a declared amount. -/
  coinsString : Nat → String
  /-- The library rendering `strconv.FormatFloat(x, 'f', -1, 32)` of a double-precision `x`. -/
  formatFloat : Float64 → String

/-- Line 130: `amountFmt := strconv.FormatFloat(float64(amount)/app.Billion, 'f', -1, 32)`. -/
def amountFmt (env : Env) (amount : Nat) : String :=
  env.formatFloat (amountFloat amount)

/-- Levels of the `logrus` calls of `run`. -/
inductive Level where
  | Info
  | Warn
  | Error
  deriving DecidableEq, Repr

/-- One constructor for each `logrus` call of the loop, with the arguments of its format. -/
inductive LogEvent where
  /-- Line 72: `not internal message`. -/
  | notInternalMessage
  /-- Line 78: `empty body`. -/
  | emptyBody
  /-- Line 87: `no opcode, %s TON received`. -/
  | noOpcode (amount : String)
  /-- Line 96: `failed to parse comment: %s`. -/
  | failedToParseComment (err : DecodeError)
  /-- Line 100: `successful top up (%s TON), user ID: %s`. -/
  | successfulTopUpTON (amount : String) (id : String)
  /-- Line 102: `unsuccessful top up, %s TON received, comment: %s`. -/
  | unsuccessfulTopUpTON (amount : String) (comment : String)
  /-- Line 108: `unknown jetton wallet: %s`. -/
  | unknownJettonWallet (srcAddr : String)
  /-- Line 114: `failed to parse query_id: %s`. -/
  | failedToParseQueryId (err : DecodeError)
  /-- Line 120: `failed to load coins: %s`. -/
  | failedToLoadCoins (err : DecodeError)
  /-- Line 126: `failed to parse sender address: %s`. -/
  | failedToParseSenderAddress (err : DecodeError)
  /-- Line 131: `[JTN] sender: %s, amount: %s, query_id: %d`. -/
  | jtnTransfer (sender : String) (amountFmt : String) (queryID : Nat)
  /-- Line 135: `failed to parse forward payload: %s`. -/
  | failedToParseForwardPayload (err : DecodeError)
  /-- Line 142: `failed to parse forward payload opcode: %s`. -/
  | failedToParseForwardPayloadOpcode (err : DecodeError)
  /-- Line 146: `wrong forward payload opcode: %d`. -/
  | wrongForwardPayloadOpcode (opcode : Nat)
  /-- Line 152: `failed to parse forward payload comment: %s`. -/
  | failedToParseForwardPayloadComment (err : DecodeError)
  /-- Line 156: `successful top up (%s JTN), user ID: %s`. -/
  | successfulTopUpJTN (amountFmt : String) (id : String)
  /-- Line 158: `unsuccessful top up, %s JTN received, comment: %s`. -/
  | unsuccessfulTopUpJTN (amountFmt : String) (comment : String)
  /-- Line 161: `[JTN] forward payload is empty`. -/
  | forwardPayloadIsEmpty
  /-- Line 164: `unsupported opcode: %d`. -/
  | unsupportedOpcode (opcode : Nat)
  deriving DecidableEq, Repr

/-- Level at which each line is logged. -/
def LogEvent.level : LogEvent → Level
  | .notInternalMessage => .Warn
  | .emptyBody => .Warn
  | .noOpcode _ => .Info
  | .failedToParseComment _ => .Error
  | .successfulTopUpTON _ _ => .Info
  | .unsuccessfulTopUpTON _ _ => .Warn
  | .unknownJettonWallet _ => .Warn
  | .failedToParseQueryId _ => .Error
  | .failedToLoadCoins _ => .Error
  | .failedToParseSenderAddress _ => .Error
  | .jtnTransfer _ _ _ => .Info
  | .failedToParseForwardPayload _ => .Error
  | .failedToParseForwardPayloadOpcode _ => .Error
  | .wrongForwardPayloadOpcode _ => .Warn
  | .failedToParseForwardPayloadComment _ => .Error
  | .successfulTopUpJTN _ _ => .Info
  | .unsuccessfulTopUpJTN _ _ => .Warn
  | .forwardPayloadIsEmpty => .Info
  | .unsupportedOpcode _ => .Warn

/-- Run-time panics of Go that end the process. -/
inductive Panic where
  | nilPointerDereference
  deriving DecidableEq, Repr

/-! ## The loop body -/

/-- Lines 139-162: the forward payload read by `LoadMaybeRef`, if any. -/
def runForwardPayload (env : Env) (amountFmt : String) : Option Slice → List LogEvent
  | none => [.forwardPayloadIsEmpty]
  | some fwdPayload =>
    match fwdPayload.LoadUInt 32 with
    | .error err => [.failedToParseForwardPayloadOpcode err]
    | .ok (opcode, fwd1) =>
      if opcode ≠ 0 then [.wrongForwardPayloadOpcode opcode]
      else
        match fwd1.LoadStringSnake with
        | .error err => [.failedToParseForwardPayloadComment err]
        | .ok comment =>
          if comment = env.id then [.successfulTopUpJTN amountFmt env.id]
          else [.unsuccessfulTopUpJTN amountFmt comment]

/-- Lines 105-162: `case 0x7362d09c`, the jetton transfer notification. `bodySlice` is the body
slice after the opcode has been read. -/
def runJettonNotification (env : Env) (internalMsg : InternalMessage) (bodySlice : Slice) :
    List LogEvent :=
  let srcAddr := env.addrString internalMsg.SrcAddr
  if srcAddr ≠ env.addrString env.jettonWallet then [.unknownJettonWallet srcAddr]
  else
    match bodySlice.LoadUInt 64 with
    | .error err => [.failedToParseQueryId err]
    | .ok (queryID, s1) =>
      match s1.LoadCoins with
      | .error err => [.failedToLoadCoins err]
      | .ok (amount, s2) =>
        match s2.LoadAddr with
        | .error err => [.failedToParseSenderAddress err]
        | .ok (sender, s3) =>
          .jtnTransfer (env.addrString sender) (amountFmt env amount) queryID ::
            (match s3.LoadMaybeRef with
             | .error err => [.failedToParseForwardPayload err]
             | .ok (fwdPayload, _) => runForwardPayload env (amountFmt env amount) fwdPayload)

/-- Lines 71-165: what one transaction received from the channel makes the loop log. Reading
`tx.IO.In.MsgType` through a nil `In` is a nil pointer dereference. -/
def runBody (env : Env) (tx : Transaction) : Except Panic (List LogEvent) :=
  match tx.In with
  | none => .error .nilPointerDereference
  | some .ExternalIn => .ok [.notInternalMessage]
  | some .ExternalOut => .ok [.notInternalMessage]
  | some (.Internal internalMsg) =>
    match internalMsg.Body with
    | none => .ok [.emptyBody]
    | some body =>
      let amount := env.coinsString internalMsg.Amount
      match body.BeginParse.LoadUInt 32 with
      | .error _ => .ok [.noOpcode amount]
      | .ok (opcode, bodySlice) =>
        if opcode = 0 then
          match bodySlice.LoadStringSnake with
          | .error err => .ok [.failedToParseComment err]
          | .ok comment =>
            if comment = env.id then .ok [.successfulTopUpTON amount env.id]
            else .ok [.unsuccessfulTopUpTON amount comment]
        else if opcode = 0x7362d09c then
          .ok (runJettonNotification env internalMsg bodySlice)
        else .ok [.unsupportedOpcode opcode]

/-- Lines 68-168: the loop over the transactions the feed delivers, in order. The result is
the log written so far and the panic that ended the process, if one did. -/
def run (env : Env) : List Transaction → List LogEvent × Option Panic
  | [] => ([], none)
  | tx :: rest =>
    match runBody env tx with
    | .error p => ([], some p)
    | .ok evs => (evs ++ (run env rest).1, (run env rest).2)

/-! ## Encoders and concrete inputs -/

/-- Big-endian bits of `n` in a field of width `w`. -/
def natToBits : Nat → Nat → List Bool
  | 0, _ => []
  | w + 1, n => decide (n / 2 ^ w % 2 = 1) :: natToBits w n

/-- Bits of a text, 8 for each character. -/
def stringToBits (s : String) : List Bool :=
  s.data.flatMap (fun c => natToBits 8 c.toNat)

/-- Bits of an amount in the coins format: the length in bytes on 4 bits, then the value. -/
def coinsBits (amount : Nat) : List Bool :=
  let l := if amount = 0 then 0 else ilog2 amount / 8 + 1
  natToBits 4 l ++ natToBits (8 * l) amount

/-- Bits of a standard address. -/
def addrBits (a : Address) : List Bool :=
  natToBits 2 2 ++ natToBits 8 (a.workchain % 256).toNat ++ natToBits 256 a.accountId

/-- Body of a plain comment: opcode 0, then the text. -/
def commentCell (c : String) : Cell :=
  .mk (natToBits 32 0 ++ stringToBits c) []

/-- Bits of the first three notification fields: query id, amount, sender. -/
def notificationBits (queryID amount : Nat) (sender : Address) : List Bool :=
  natToBits 64 queryID ++ coinsBits amount ++ addrBits sender

/-- The body slice of a notification once its opcode has been read. -/
def notificationSlice (queryID amount : Nat) (sender : Address) (fwd : Option Cell) : Slice :=
  { bits := notificationBits queryID amount sender ++ [fwd.isSome], refs := fwd.toList }

/-- Body of a transfer notification with all four fields. -/
def notificationCell (queryID amount : Nat) (sender : Address) (fwd : Option Cell) : Cell :=
  .mk (natToBits 32 0x7362d09c ++ (notificationSlice queryID amount sender fwd).bits)
    (notificationSlice queryID amount sender fwd).refs

/-- Body of a transfer notification that ends after the sender address. -/
def truncatedNotificationCell (queryID amount : Nat) (sender : Address) : Cell :=
  .mk (natToBits 32 0x7362d09c ++ notificationBits queryID amount sender) []

/-- Body that holds nothing but a 32-bit opcode. -/
def opcodeCell (opcode : Nat) : Cell :=
  .mk (natToBits 32 opcode) []

/-- The jetton wallet of the example environment. -/
def exWallet : Address := { workchain := 0, accountId := 0x595e4e92 }

/-- Some other account. -/
def exOther : Address := { workchain := 0, accountId := 0xabcdef }

/-- Number of divisions by ten until the argument drops below 10. -/
def log10Fuel : Nat → Nat → Nat
  | 0, _ => 0
  | f + 1, n => if n < 10 then 0 else 1 + log10Fuel f (n / 10)

/-- Floor of the decimal logarithm (0 at 0). -/
def ilog10 (n : Nat) : Nat := log10Fuel n n

/-- Least `j` from the start value on with `num * 10 ^ j ≥ den`. -/
def negExp10 : Nat → Nat → Nat → Nat → Nat
  | 0, j, _, _ => j
  | f + 1, j, num, den => if num * 10 ^ j ≥ den then j else negExp10 f (j + 1) num den

/-- Floor of the decimal logarithm of the positive fraction `num / den`. -/
def floorLog10 (num den : Nat) : Int :=
  if num ≥ den then (ilog10 (num / den) : Int) else - (negExp10 den 1 num den : Int)

/-- Decide `d * 10 ^ t ≤ num / den`. -/
def decLE (d : Nat) (t : Int) (num den : Nat) : Bool :=
  d * 10 ^ t.toNat * den ≤ num * 10 ^ (-t).toNat

/-- Decide `d * 10 ^ t < num / den`. -/
def decLT (d : Nat) (t : Int) (num den : Nat) : Bool :=
  d * 10 ^ t.toNat * den < num * 10 ^ (-t).toNat

/-- Shortest decimal `d * 10 ^ t` that converts back to the binary value `m * 2 ^ e` of
precision `p`: the number of significant digits `n` grows until one of the two `n`-digit
neighbours of the value lies in its rounding interval (bounds included exactly when `m` is
even). Of two admissible neighbours the nearer one is taken, and on an exact tie the one whose
last digit is even. -/
def shortestFuel (p m : Nat) (e : Int) : Nat → Nat → Option (Nat × Int)
  | 0, _ => none
  | f + 1, n =>
    let unit := 2 ^ (e - 2).toNat
    let den := 2 ^ (2 - e).toNat
    let v := 4 * m * unit
    let hi := (4 * m + 2) * unit
    let lo := (if m = 2 ^ (p - 1) then 4 * m - 1 else 4 * m - 2) * unit
    let closed : Bool := m % 2 = 0
    let t : Int := floorLog10 v den - ((n : Int) - 1)
    let dlo := v * 10 ^ (-t).toNat / (den * 10 ^ t.toNat)
    let dhi := dlo + 1
    let okLo : Bool := if closed then !(decLT dlo t lo den) else !(decLE dlo t lo den)
    let okHi : Bool := if closed then decLE dhi t hi den else decLT dhi t hi den
    let hiNearer : Bool := decLT (2 * dlo + 1) t (2 * v) den
    let tie : Bool := decLE (2 * dlo + 1) t (2 * v) den && !hiNearer
    if okLo ∧ okHi then
      some (if hiNearer ∨ (tie ∧ dlo % 2 = 1) then (dhi, t) else (dlo, t))
    else if okLo then some (dlo, t)
    else if okHi then some (dhi, t)
    else shortestFuel p m e f (n + 1)

/-- Drop the trailing zero digits of `d`, raising the decimal exponent. -/
def stripZeros : Nat → Nat → Int → Nat × Int
  | 0, d, t => (d, t)
  | f + 1, d, t =>
    if d ≠ 0 ∧ d % 10 = 0 then stripZeros f (d / 10) (t + 1) else (d, t)

/-- Format `%f` of the decimal `d * 10 ^ t` with exactly the digits it has. -/
def renderF (d : Nat) (t : Int) : String :=
  if t ≥ 0 then String.mk (Nat.toDigits 10 (d * 10 ^ t.toNat))
  else
    let k := (-t).toNat
    let ip := Nat.toDigits 10 (d / 10 ^ k)
    let fp := Nat.toDigits 10 (d % 10 ^ k)
    String.mk (ip ++ '.' :: (List.replicate (k - fp.length) '0' ++ fp))

/-- Rendering of a double-precision value in the example environment, after
`strconv.FormatFloat(x, 'f', -1, 32)`: `x` is rounded to single precision, and the shortest
decimal that converts back to that single-precision value is written in `%f` form. -/
def exFormatFloat (x : Float64) : String :=
  if x.mant = 0 then "0"
  else
    let y := roundNE 24 (x.mant * 2 ^ x.exp.toNat) (2 ^ (-x.exp).toNat)
    match shortestFuel 24 y.1 y.2 20 1 with
    | none => ""
    | some (d, t) => renderF (stripZeros 40 d t).1 (stripZeros 40 d t).2

/-- Decimal rendering of an amount with nine decimals, trailing zeros cut. -/
def exCoinsString (n : Nat) : String :=
  if n = 0 then "0" else renderF (stripZeros 9 n (-9)).1 (stripZeros 9 n (-9)).2

/-- Raw rendering of an address: workchain, colon, account id in hexadecimal. -/
def exAddrString (a : Address) : String :=
  String.mk (Nat.toDigits 10 a.workchain.natAbs ++ ':' :: Nat.toDigits 16 a.accountId)

/-- Example environment: a fixed token and wallet. -/
def exEnv : Env :=
  { id := "7b0c1d9e-token", jettonWallet := exWallet,
    addrString := exAddrString, coinsString := exCoinsString, formatFloat := exFormatFloat }

/-- Internal message from `src` declaring `amount`, with an optional body. -/
def exTx (src : Address) (amount : Nat) (body : Option Cell) : Transaction :=
  { In := some (.Internal { SrcAddr := src, Amount := amount, Body := body }) }

set_option maxRecDepth 100000

/-! ## The amount text in the example environment -/

/-- Line 130 in the example environment at a few raw amounts: nine decimals are kept only as far
as single precision tells them apart, an exact tie between two shortest decimals goes to the
even digit, and only the low 64 bits of an amount count. -/
theorem amountFmt_examples :
    amountFmt exEnv 0 = "0" ∧ amountFmt exEnv 1 = "0.000000001" ∧
      amountFmt exEnv 1000000000 = "1" ∧ amountFmt exEnv 1500000000 = "1.5" ∧
      amountFmt exEnv 2500000000 = "2.5" ∧ amountFmt exEnv 123456789 = "0.12345679" ∧
      amountFmt exEnv 1000000001 = "1" ∧ amountFmt exEnv 53460937500 = "53.460938" ∧
      amountFmt exEnv 18446744073709551615 = "18446744000" ∧
      amountFmt exEnv 18446744073709551621 = "0.000000005" := by
  decide

/-- The quotient `float64(amount)/app.Billion` of line 130 at some amounts: 2.5 and 1.5 are
exact, and 2.500000001 is the double nearest to it. -/
theorem amountFloat_examples :
    amountFloat 0 = { mant := 0, exp := 0 } ∧
      amountFloat 2500000000 = { mant := 5 * 2 ^ 50, exp := -51 } ∧
      amountFloat 1500000000 = { mant := 3 * 2 ^ 51, exp := -52 } ∧
      amountFloat 2500000001 = { mant := 5629499536464920, exp := -51 } ∧
      amountFloat (2 ^ 64 + 2500000000) = amountFloat 2500000000 := by
  decide

/-! ## The arithmetic of line 130 rounds to nearest, ties to even -/

/-- With enough fuel, `log2Fuel` is the floor of the binary logarithm. -/
theorem log2Fuel_bounds : ∀ (f n : Nat), 0 < n → n ≤ f →
    2 ^ log2Fuel f n ≤ n ∧ n < 2 ^ (log2Fuel f n + 1)
  | 0, n, hn, hf => by omega
  | f + 1, n, hn, hf => by
    unfold log2Fuel
    by_cases h : n < 2
    · simp only [h, if_true]
      constructor <;> simp <;> omega
    · simp only [h, if_false]
      have h2 : 0 < n / 2 := Nat.div_pos (by omega) (by norm_num)
      have h3 : n / 2 ≤ f := by omega
      obtain ⟨ih1, ih2⟩ := log2Fuel_bounds f (n / 2) h2 h3
      constructor
      · rw [Nat.add_comm 1, pow_succ]; omega
      · rw [Nat.add_comm 1, pow_succ]; omega

/-- The number `ilog2 n` is the floor of the binary logarithm of a positive `n`. -/
theorem ilog2_bounds (n : Nat) (hn : 0 < n) : 2 ^ ilog2 n ≤ n ∧ n < 2 ^ (ilog2 n + 1) :=
  log2Fuel_bounds n n hn le_rfl

/-- The fraction that `roundNE` divides out is `num / den` scaled by `2 ^ (-e)`. -/
theorem scaled_eq (num den : Nat) (hd : 0 < den) (e : Int) :
    ((num * 2 ^ (-e).toNat : Nat) : ℚ) / ((den * 2 ^ e.toNat : Nat) : ℚ)
      = (num : ℚ) / den / (2 : ℚ) ^ e := by
  have hd' : (den : ℚ) ≠ 0 := by exact_mod_cast hd.ne'
  rcases le_total 0 e with h | h
  · have h1 : (-e).toNat = 0 := by omega
    obtain ⟨n, rfl⟩ := Int.eq_ofNat_of_zero_le h
    simp [h1, zpow_natCast]
    field_simp
  · have h1 : e.toNat = 0 := by omega
    obtain ⟨n, hn⟩ := Int.eq_ofNat_of_zero_le (by omega : 0 ≤ -e)
    have he : e = -(n : Int) := by omega
    subst he
    simp [zpow_neg, zpow_natCast]
    field_simp

/-- The difference of the binary logarithms brackets the fraction within a factor 2. -/
theorem ratio_bounds (num den : Nat) (hn : 0 < num) (hd : 0 < den) :
    (2 : ℚ) ^ ((ilog2 num : Int) - (ilog2 den : Int) - 1) < (num : ℚ) / den ∧
      (num : ℚ) / den < (2 : ℚ) ^ ((ilog2 num : Int) - (ilog2 den : Int) + 1) := by
  obtain ⟨a1, a2⟩ := ilog2_bounds num hn
  obtain ⟨b1, b2⟩ := ilog2_bounds den hd
  have hdq : (0 : ℚ) < den := by exact_mod_cast hd
  have a1q : (2 : ℚ) ^ ilog2 num ≤ num := by exact_mod_cast a1
  have a2q : (num : ℚ) < 2 ^ (ilog2 num + 1) := by exact_mod_cast a2
  have b1q : (2 : ℚ) ^ ilog2 den ≤ den := by exact_mod_cast b1
  have b2q : (den : ℚ) < 2 ^ (ilog2 den + 1) := by exact_mod_cast b2
  have h2 : (2 : ℚ) ≠ 0 := by norm_num
  constructor
  · rw [lt_div_iff₀ hdq]
    have : (2 : ℚ) ^ ((ilog2 num : Int) - (ilog2 den : Int) - 1) * 2 ^ (ilog2 den + 1)
        = 2 ^ ilog2 num := by
      rw [← zpow_natCast, ← zpow_natCast, ← zpow_add₀ h2]
      congr 1
      push_cast
      ring
    have hpos : (0 : ℚ) < 2 ^ ((ilog2 num : Int) - (ilog2 den : Int) - 1) := by positivity
    calc (2 : ℚ) ^ ((ilog2 num : Int) - (ilog2 den : Int) - 1) * den
        < 2 ^ ((ilog2 num : Int) - (ilog2 den : Int) - 1) * 2 ^ (ilog2 den + 1) :=
          mul_lt_mul_of_pos_left b2q hpos
      _ = 2 ^ ilog2 num := this
      _ ≤ num := a1q
  · rw [div_lt_iff₀ hdq]
    have : (2 : ℚ) ^ ((ilog2 num : Int) - (ilog2 den : Int) + 1) * 2 ^ (ilog2 den)
        = 2 ^ (ilog2 num + 1) := by
      rw [← zpow_natCast, ← zpow_natCast, ← zpow_add₀ h2]
      congr 1
      push_cast
      ring
    have hpos : (0 : ℚ) < 2 ^ ((ilog2 num : Int) - (ilog2 den : Int) + 1) := by positivity
    calc (num : ℚ) < 2 ^ (ilog2 num + 1) := a2q
      _ = 2 ^ ((ilog2 num : Int) - (ilog2 den : Int) + 1) * 2 ^ (ilog2 den) := this.symm
      _ ≤ 2 ^ ((ilog2 num : Int) - (ilog2 den : Int) + 1) * den :=
          mul_le_mul_of_nonneg_left b1q hpos.le

/-- Rounding a scaled fraction `n / d` with `2 ^ (p - 1) ≤ n / d < 2 ^ p` to the nearest
integer. -/
theorem round_step (p n d : Nat) (hd : 0 < d) (hlo : 2 ^ (p - 1) * d ≤ n) (hhi : n < 2 ^ p * d) :
    let m := if 2 * (n % d) > d ∨ (2 * (n % d) = d ∧ n / d % 2 = 1) then n / d + 1 else n / d
    2 ^ (p - 1) ≤ m ∧ m ≤ 2 ^ p ∧ |(n : ℚ) / d - m| ≤ 1 / 2 ∧
      (|(n : ℚ) / d - m| = 1 / 2 → m % 2 = 0) := by
  intro m
  have hdq : (0 : ℚ) < d := by exact_mod_cast hd
  have h0lo : 2 ^ (p - 1) ≤ n / d := (Nat.le_div_iff_mul_le hd).2 hlo
  have h0hi : n / d < 2 ^ p := (Nat.div_lt_iff_lt_mul hd).2 hhi
  have hr : n % d < d := Nat.mod_lt _ hd
  have hsplit : (n : ℚ) = d * (n / d : Nat) + (n % d : Nat) := by
    exact_mod_cast (Nat.div_add_mod n d).symm
  by_cases hc : 2 * (n % d) > d ∨ (2 * (n % d) = d ∧ n / d % 2 = 1)
  · have hm : m = n / d + 1 := by simp [m, hc]
    have h2r : d ≤ 2 * (n % d) := by rcases hc with h | h <;> omega
    have h2rq : (d : ℚ) ≤ 2 * (n % d : Nat) := by exact_mod_cast h2r
    have hrq : ((n % d : Nat) : ℚ) < d := by exact_mod_cast hr
    have hval : (n : ℚ) / d - m = ((n % d : Nat) : ℚ) / d - 1 := by
      rw [hm, hsplit]
      push_cast
      field_simp
      ring
    have hfrac1 : ((n % d : Nat) : ℚ) / d < 1 := (div_lt_one hdq).2 hrq
    have hfrac2 : (1 : ℚ) / 2 ≤ ((n % d : Nat) : ℚ) / d := by
      rw [le_div_iff₀ hdq]; linarith
    have habs : |(n : ℚ) / d - m| = 1 - ((n % d : Nat) : ℚ) / d := by
      rw [hval, abs_of_neg (by linarith)]; ring
    refine ⟨by omega, by omega, by rw [habs]; linarith, fun htie => ?_⟩
    rw [habs] at htie
    have hhalf : ((n % d : Nat) : ℚ) / d = 1 / 2 := by linarith
    rw [div_eq_iff hdq.ne'] at hhalf
    have h2eq : 2 * (n % d) = d := by
      have : (2 : ℚ) * ((n % d : Nat) : ℚ) = d := by rw [hhalf]; ring
      exact_mod_cast this
    rcases hc with h | h
    · omega
    · omega
  · have hm : m = n / d := by simp [m, hc]
    have h2r : 2 * (n % d) ≤ d := by
      by_contra h
      exact hc (Or.inl (by omega))
    have h2rq : 2 * ((n % d : Nat) : ℚ) ≤ d := by exact_mod_cast h2r
    have hrq : (0 : ℚ) ≤ (n % d : Nat) := by positivity
    have hval : (n : ℚ) / d - m = ((n % d : Nat) : ℚ) / d := by
      rw [hm, hsplit]
      field_simp
    have hfrac1 : (0 : ℚ) ≤ ((n % d : Nat) : ℚ) / d := by positivity
    have hfrac2 : ((n % d : Nat) : ℚ) / d ≤ 1 / 2 := by
      rw [div_le_iff₀ hdq]; linarith
    have habs : |(n : ℚ) / d - m| = ((n % d : Nat) : ℚ) / d := by
      rw [hval, abs_of_nonneg hfrac1]
    refine ⟨by omega, by omega, by rw [habs]; exact hfrac2, fun htie => ?_⟩
    rw [habs, div_eq_iff hdq.ne'] at htie
    have h2eq : 2 * (n % d) = d := by
      have : (2 : ℚ) * ((n % d : Nat) : ℚ) = d := by rw [htie]; ring
      exact_mod_cast this
    have hodd : ¬ (n / d % 2 = 1) := fun h => hc (Or.inr ⟨h2eq, h⟩)
    omega

/-- Bounds of the scaled fraction, carried from the rationals to the integers. -/
theorem scaled_bounds (p num den : Nat) (hd : 0 < den) (e : Int)
    (h1 : ((2 ^ (p - 1) : Nat) : ℚ) ≤ (num : ℚ) / den / (2 : ℚ) ^ e)
    (h2 : (num : ℚ) / den / (2 : ℚ) ^ e < ((2 ^ p : Nat) : ℚ)) :
    2 ^ (p - 1) * (den * 2 ^ e.toNat) ≤ num * 2 ^ (-e).toNat ∧
      num * 2 ^ (-e).toNat < 2 ^ p * (den * 2 ^ e.toNat) := by
  have hD : 0 < den * 2 ^ e.toNat := Nat.mul_pos hd (by positivity)
  have hDq : (0 : ℚ) < ((den * 2 ^ e.toNat : Nat) : ℚ) := by exact_mod_cast hD
  rw [← scaled_eq num den hd e] at h1 h2
  rw [le_div_iff₀ hDq] at h1
  rw [div_lt_iff₀ hDq] at h2
  exact ⟨by exact_mod_cast h1, by exact_mod_cast h2⟩

/-- The function `roundNE` rounds to nearest, ties to even: the mantissa has exactly `p` bits,
the value `m * 2 ^ e` is within half a unit in the last place of `num / den`, and when it is
exactly half a unit away the mantissa is even. -/
theorem roundNE_nearest (p num den : Nat) (hp : 1 ≤ p) (hn : 0 < num) (hd : 0 < den) :
    2 ^ (p - 1) ≤ (roundNE p num den).1 ∧ (roundNE p num den).1 < 2 ^ p ∧
      |(num : ℚ) / den - (roundNE p num den).1 * (2 : ℚ) ^ (roundNE p num den).2|
        ≤ (2 : ℚ) ^ (roundNE p num den).2 / 2 ∧
      (|(num : ℚ) / den - (roundNE p num den).1 * (2 : ℚ) ^ (roundNE p num den).2|
        = (2 : ℚ) ^ (roundNE p num den).2 / 2 → (roundNE p num den).1 % 2 = 0) := by
  obtain ⟨hq1, hq2⟩ := ratio_bounds num den hn hd
  have h2 : (2 : ℚ) ≠ 0 := by norm_num
  set k : Int := (ilog2 num : Int) - (ilog2 den : Int) with hk
  set e1 : Int := k - ((p : Int) - 1) with he1
  set q : ℚ := (num : ℚ) / den with hq
  -- the exponent chosen by the function
  obtain ⟨e, he⟩ : ∃ e : Int, e =
      if num * 2 ^ (-e1).toNat / (den * 2 ^ e1.toNat) < 2 ^ (p - 1) then e1 - 1 else e1 :=
    ⟨_, rfl⟩
  have hD1 : 0 < den * 2 ^ e1.toNat := Nat.mul_pos hd (by positivity)
  have hD1q : (0 : ℚ) < ((den * 2 ^ e1.toNat : Nat) : ℚ) := by exact_mod_cast hD1
  have hpow1 : (2 : ℚ) ^ (k - 1) = 2 ^ e1 * (2 ^ (p - 1) : Nat) / 2 := by
    have : k - 1 = e1 + ((p - 1 : Nat) : Int) - 1 := by omega
    rw [this, zpow_sub₀ h2, zpow_add₀ h2, zpow_natCast]
    push_cast
    simp
  have hpow2 : (2 : ℚ) ^ (k + 1) = 2 ^ e1 * (2 ^ p : Nat) := by
    have : k + 1 = e1 + (p : Int) := by omega
    rw [this, zpow_add₀ h2, zpow_natCast]
    push_cast
    rfl
  have he1pos : (0 : ℚ) < 2 ^ e1 := by positivity
  have hppos : (0 : ℚ) < ((2 ^ (p - 1) : Nat) : ℚ) := by positivity
  have hpp : ((2 ^ p : Nat) : ℚ) = 2 * ((2 ^ (p - 1) : Nat) : ℚ) := by
    obtain ⟨j, rfl⟩ : ∃ j, p = j + 1 := ⟨p - 1, by omega⟩
    push_cast
    simp [pow_succ]
    ring
  -- bounds of the scaled fraction at the chosen exponent
  have hS : ((2 ^ (p - 1) : Nat) : ℚ) ≤ q / (2 : ℚ) ^ e ∧ q / (2 : ℚ) ^ e < ((2 ^ p : Nat) : ℚ) := by
    by_cases hc : num * 2 ^ (-e1).toNat / (den * 2 ^ e1.toNat) < 2 ^ (p - 1)
    · have hee : e = e1 - 1 := by rw [he, if_pos hc]
      have hc' : q / 2 ^ e1 < ((2 ^ (p - 1) : Nat) : ℚ) := by
        rw [hq, ← scaled_eq num den hd e1, div_lt_iff₀ hD1q]
        exact_mod_cast (Nat.div_lt_iff_lt_mul hD1).1 hc
      have hz : (2 : ℚ) ^ e = 2 ^ e1 / 2 := by rw [hee, zpow_sub₀ h2]; simp
      rw [hz]
      constructor
      · rw [le_div_iff₀ (by positivity)]
        have : (2 : ℚ) ^ e1 * (2 ^ (p - 1) : Nat) / 2 < q := hpow1 ▸ hq1
        nlinarith
      · rw [div_lt_iff₀ (by positivity), hpp]
        rw [div_lt_iff₀ he1pos] at hc'
        nlinarith
    · have hee : e = e1 := by rw [he, if_neg hc]
      have hc' : ((2 ^ (p - 1) : Nat) : ℚ) ≤ q / 2 ^ e1 := by
        rw [hq, ← scaled_eq num den hd e1, le_div_iff₀ hD1q]
        have := (Nat.le_div_iff_mul_le hD1).1 (not_lt.1 hc)
        exact_mod_cast this
      rw [hee]
      refine ⟨hc', ?_⟩
      rw [div_lt_iff₀ he1pos]
      have : q < 2 ^ e1 * (2 ^ p : Nat) := hpow2 ▸ hq2
      linarith
  obtain ⟨hb1, hb2⟩ := scaled_bounds p num den hd e hS.1 hS.2
  have hD : 0 < den * 2 ^ e.toNat := Nat.mul_pos hd (by positivity)
  obtain ⟨m, hmdef⟩ : ∃ m : Nat, m =
      if 2 * (num * 2 ^ (-e).toNat % (den * 2 ^ e.toNat)) > den * 2 ^ e.toNat ∨
          (2 * (num * 2 ^ (-e).toNat % (den * 2 ^ e.toNat)) = den * 2 ^ e.toNat ∧
            num * 2 ^ (-e).toNat / (den * 2 ^ e.toNat) % 2 = 1)
        then num * 2 ^ (-e).toNat / (den * 2 ^ e.toNat) + 1
        else num * 2 ^ (-e).toNat / (den * 2 ^ e.toNat) := ⟨_, rfl⟩
  have hstep := round_step p (num * 2 ^ (-e).toNat) (den * 2 ^ e.toNat) hD hb1 hb2
  simp only [] at hstep
  rw [← hmdef, scaled_eq num den hd e] at hstep
  obtain ⟨hm1, hm2, hm3, hm4⟩ := hstep
  have hepos : (0 : ℚ) < 2 ^ e := by positivity
  -- the error in units of `2 ^ e`
  have hscale : |q - m * 2 ^ e| = |q / 2 ^ e - m| * 2 ^ e := by
    have : q - m * 2 ^ e = (q / 2 ^ e - m) * 2 ^ e := by
      field_simp
      ring
    rw [this, abs_mul, abs_of_pos hepos]
  have herr : |q - m * 2 ^ e| ≤ 2 ^ e / 2 := by
    rw [hscale]
    calc |q / 2 ^ e - ↑m| * 2 ^ e ≤ 1 / 2 * 2 ^ e := mul_le_mul_of_nonneg_right hm3 hepos.le
      _ = 2 ^ e / 2 := by ring
  have hres : roundNE p num den = if m = 2 ^ p then (2 ^ (p - 1), e + 1) else (m, e) := by
    rw [hmdef, he]
    rfl
  rw [hres]
  by_cases hmp : m = 2 ^ p
  · rw [if_pos hmp]
    have hval : ((2 ^ (p - 1) : Nat) : ℚ) * 2 ^ (e + 1) = (m : ℚ) * 2 ^ e := by
      rw [hmp, hpp, zpow_add₀ h2]
      simp
      ring
    have hlt : (2 : ℚ) ^ e / 2 < 2 ^ (e + 1) / 2 := by
      rw [zpow_add₀ h2]
      simp
      linarith
    refine ⟨le_rfl, Nat.pow_lt_pow_right (by norm_num) (by omega), ?_, ?_⟩
    · show |q - ((2 ^ (p - 1) : Nat) : ℚ) * 2 ^ (e + 1)| ≤ 2 ^ (e + 1) / 2
      rw [hval]
      linarith
    · show |q - ((2 ^ (p - 1) : Nat) : ℚ) * 2 ^ (e + 1)| = 2 ^ (e + 1) / 2 → _
      rw [hval]
      intro htie
      linarith
  · rw [if_neg hmp]
    refine ⟨hm1, lt_of_le_of_ne hm2 hmp, herr, fun htie => hm4 ?_⟩
    have h1 : |q / 2 ^ e - (m : ℚ)| * 2 ^ e = 1 / 2 * 2 ^ e := by
      rw [← hscale]
      show |q - (m : ℚ) * 2 ^ e| = 1 / 2 * 2 ^ e
      rw [htie]
      ring
    exact mul_right_cancel₀ hepos.ne' h1

/-- The fraction handed to the second rounding of `float64DivBillion`. -/
theorem scaled_mul_eq (num den : Nat) (hd : 0 < den) (e : Int) :
    ((num * 2 ^ e.toNat : Nat) : ℚ) / ((den * 2 ^ (-e).toNat : Nat) : ℚ)
      = (num : ℚ) * (2 : ℚ) ^ e / den := by
  have h := scaled_eq num den hd (-e)
  rw [neg_neg] at h
  rw [h, zpow_neg]
  field_simp

/-- The quotient of line 130 is the correctly rounded one: `float64(n)` is a double nearest to
`n`, and `float64(n)/Billion` is a double nearest to the exact quotient of that double by
`Billion`; both have a 53-bit mantissa, and an exact tie goes to the even mantissa. -/
theorem float64DivBillion_nearest (n : Nat) (hn : 0 < n) :
    (2 ^ 52 ≤ (roundNE 53 n 1).1 ∧ (roundNE 53 n 1).1 < 2 ^ 53 ∧
      |(n : ℚ) - (roundNE 53 n 1).1 * (2 : ℚ) ^ (roundNE 53 n 1).2|
        ≤ (2 : ℚ) ^ (roundNE 53 n 1).2 / 2 ∧
      (|(n : ℚ) - (roundNE 53 n 1).1 * (2 : ℚ) ^ (roundNE 53 n 1).2|
        = (2 : ℚ) ^ (roundNE 53 n 1).2 / 2 → (roundNE 53 n 1).1 % 2 = 0)) ∧
    (2 ^ 52 ≤ (float64DivBillion n).mant ∧ (float64DivBillion n).mant < 2 ^ 53 ∧
      |((roundNE 53 n 1).1 : ℚ) * (2 : ℚ) ^ (roundNE 53 n 1).2 / Billion
          - (float64DivBillion n).mant * (2 : ℚ) ^ (float64DivBillion n).exp|
        ≤ (2 : ℚ) ^ (float64DivBillion n).exp / 2 ∧
      (|((roundNE 53 n 1).1 : ℚ) * (2 : ℚ) ^ (roundNE 53 n 1).2 / Billion
          - (float64DivBillion n).mant * (2 : ℚ) ^ (float64DivBillion n).exp|
        = (2 : ℚ) ^ (float64DivBillion n).exp / 2 → (float64DivBillion n).mant % 2 = 0)) := by
  have hx := roundNE_nearest 53 n 1 (by norm_num) hn (by norm_num)
  simp only [Nat.cast_one, div_one] at hx
  have hxpos : 0 < (roundNE 53 n 1).1 := lt_of_lt_of_le (by positivity) hx.1
  have hnum : 0 < (roundNE 53 n 1).1 * 2 ^ (roundNE 53 n 1).2.toNat :=
    Nat.mul_pos hxpos (by positivity)
  have hB : 0 < Billion := by decide
  have hden : 0 < Billion * 2 ^ (-(roundNE 53 n 1).2).toNat := Nat.mul_pos hB (by positivity)
  have hy := roundNE_nearest 53 ((roundNE 53 n 1).1 * 2 ^ (roundNE 53 n 1).2.toNat)
    (Billion * 2 ^ (-(roundNE 53 n 1).2).toNat) (by norm_num) hnum hden
  rw [scaled_mul_eq _ _ hB] at hy
  have hdef : float64DivBillion n =
      { mant := (roundNE 53 ((roundNE 53 n 1).1 * 2 ^ (roundNE 53 n 1).2.toNat)
          (Billion * 2 ^ (-(roundNE 53 n 1).2).toNat)).1,
        exp := (roundNE 53 ((roundNE 53 n 1).1 * 2 ^ (roundNE 53 n 1).2.toNat)
          (Billion * 2 ^ (-(roundNE 53 n 1).2).toNat)).2 } := by
    unfold float64DivBillion
    rw [if_neg (by omega)]
  rw [hdef]
  exact ⟨hx, hy⟩

/-! ## Plain comments (opcode 0) -/

/-- C1: for an internal message whose body starts with the 32-bit opcode 0 and whose remaining
slice decodes with `LoadStringSnake` to a text `c`, and for every expected token `env.id`: the
transaction logs the single line `successful top up` with the declared amount exactly when
`c = env.id` (equality of the two texts as they are), and otherwise it logs the single line
`unsuccessful top up` with the declared amount and `c` itself. -/
theorem comment_matched_iff_equal (env : Env) (tx : Transaction) (m : InternalMessage)
    (body : Cell) (s : Slice) (c : String)
    (hIn : tx.In = some (.Internal m)) (hBody : m.Body = some body)
    (hOp : body.BeginParse.LoadUInt 32 = .ok (0, s))
    (hC : s.LoadStringSnake = .ok c) :
    (runBody env tx = .ok [.successfulTopUpTON (env.coinsString m.Amount) env.id] ↔ c = env.id) ∧
    (c ≠ env.id →
      runBody env tx = .ok [.unsuccessfulTopUpTON (env.coinsString m.Amount) c]) := by
  have hrun : runBody env tx =
      if c = env.id then .ok [.successfulTopUpTON (env.coinsString m.Amount) env.id]
      else .ok [.unsuccessfulTopUpTON (env.coinsString m.Amount) c] := by
    simp [runBody, hIn, hBody, hOp, hC]
  by_cases h : c = env.id
  · simp [hrun, h]
  · simp [hrun, h]

/-- Witness of C1: the token itself as comment, declared amount 1.5 TON. -/
theorem comment_matched_iff_equal_witness :
    (commentCell "7b0c1d9e-token").BeginParse.LoadUInt 32
        = .ok (0, { bits := stringToBits "7b0c1d9e-token", refs := [] }) ∧
      Slice.LoadStringSnake { bits := stringToBits "7b0c1d9e-token", refs := [] }
        = .ok "7b0c1d9e-token" ∧
      ((runBody exEnv (exTx exOther 1500000000 (some (commentCell "7b0c1d9e-token")))
          = .ok [.successfulTopUpTON "1.5" "7b0c1d9e-token"] ↔ "7b0c1d9e-token" = exEnv.id) ∧
       ("7b0c1d9e-token" ≠ exEnv.id →
          runBody exEnv (exTx exOther 1500000000 (some (commentCell "7b0c1d9e-token")))
            = .ok [.unsuccessfulTopUpTON "1.5" "7b0c1d9e-token"])) :=
  ⟨by rfl, by decide,
    comment_matched_iff_equal exEnv (exTx exOther 1500000000 (some (commentCell "7b0c1d9e-token")))
      { SrcAddr := exOther, Amount := 1500000000, Body := some (commentCell "7b0c1d9e-token") }
      (commentCell "7b0c1d9e-token") { bits := stringToBits "7b0c1d9e-token", refs := [] }
      "7b0c1d9e-token" rfl rfl (by rfl) (by decide)⟩

/-- The comparison is case-sensitive and does not trim: a token in upper case, or followed by a
blank, is reported as an unsuccessful top up with the comment unchanged. -/
theorem comment_case_and_blank_examples :
    runBody exEnv (exTx exOther 1500000000 (some (commentCell "7B0C1D9E-TOKEN")))
        = .ok [.unsuccessfulTopUpTON "1.5" "7B0C1D9E-TOKEN"] ∧
      runBody exEnv (exTx exOther 1500000000 (some (commentCell "7b0c1d9e-token ")))
        = .ok [.unsuccessfulTopUpTON "1.5" "7b0c1d9e-token "] := by
  decide

/-! ## Unknown opcodes, missing bodies and missing messages -/

/-- C4: for an internal message whose body yields a 32-bit opcode `v` other than 0 and
0x7362d09c, the transaction logs the single line `unsupported opcode` with exactly `v`,
whatever slice `s` is left after the opcode (it is not read), and the loop goes on: the log of
the feed is that line followed by the log of the remaining feed, unchanged. -/
theorem unsupported_opcode_reported (env : Env) (tx : Transaction) (m : InternalMessage)
    (body : Cell) (v : Nat) (s : Slice)
    (hIn : tx.In = some (.Internal m)) (hBody : m.Body = some body)
    (hOp : body.BeginParse.LoadUInt 32 = .ok (v, s))
    (h0 : v ≠ 0) (hN : v ≠ 0x7362d09c) :
    runBody env tx = .ok [.unsupportedOpcode v] ∧
    ∀ rest : List Transaction,
      run env (tx :: rest) = (.unsupportedOpcode v :: (run env rest).1, (run env rest).2) := by
  have hrun : runBody env tx = .ok [.unsupportedOpcode v] := by
    simp [runBody, hIn, hBody, hOp, h0, hN]
  refine ⟨hrun, fun rest => ?_⟩
  simp [run, hrun]

/-- Witness of C4: opcode 0xdeadbeef, followed in the feed by a matching comment. -/
theorem unsupported_opcode_reported_witness :
    (opcodeCell 0xdeadbeef).BeginParse.LoadUInt 32 = .ok (0xdeadbeef, { bits := [], refs := [] }) ∧
      runBody exEnv (exTx exOther 1 (some (opcodeCell 0xdeadbeef)))
        = .ok [.unsupportedOpcode 0xdeadbeef] ∧
      run exEnv [exTx exOther 1 (some (opcodeCell 0xdeadbeef)),
                 exTx exOther 1500000000 (some (commentCell "7b0c1d9e-token"))]
        = ([.unsupportedOpcode 0xdeadbeef, .successfulTopUpTON "1.5" "7b0c1d9e-token"], none) :=
  have h := unsupported_opcode_reported exEnv (exTx exOther 1 (some (opcodeCell 0xdeadbeef)))
    { SrcAddr := exOther, Amount := 1, Body := some (opcodeCell 0xdeadbeef) }
    (opcodeCell 0xdeadbeef) 0xdeadbeef { bits := [], refs := [] } rfl rfl (by rfl)
    (by decide) (by decide)
  ⟨by rfl, h.1,
    (h.2 [exTx exOther 1500000000 (some (commentCell "7b0c1d9e-token"))]).trans (by decide)⟩

/-- C5: an internal message without a body reaches the loop with the empty cell as `Body` (no
bits, no references). No opcode can be read from it, so no opcode is dispatched on, and the
transaction logs the single line `no opcode, ... TON received` with the declared amount, at
level Info; the loop goes on with the next transaction. -/
theorem no_body_is_bare_value (env : Env) (tx : Transaction) (m : InternalMessage)
    (hIn : tx.In = some (.Internal m)) (hBody : m.Body = some (.mk [] [])) :
    (Cell.mk [] []).BeginParse.LoadUInt 32 = .error .OutOfData ∧
    runBody env tx = .ok [.noOpcode (env.coinsString m.Amount)] ∧
    (LogEvent.noOpcode (env.coinsString m.Amount)).level = .Info ∧
    ∀ rest : List Transaction,
      run env (tx :: rest)
        = (.noOpcode (env.coinsString m.Amount) :: (run env rest).1, (run env rest).2) := by
  have hOp : (Cell.mk [] []).BeginParse.LoadUInt 32 = .error .OutOfData := by
    simp [Cell.BeginParse, Slice.LoadUInt, Slice.readBits]
  have hrun : runBody env tx = .ok [.noOpcode (env.coinsString m.Amount)] := by
    simp [runBody, hIn, hBody, hOp]
  refine ⟨hOp, hrun, rfl, fun rest => ?_⟩
  simp [run, hrun]

/-- Witness of C5: a message of 5 TON without a body, followed in the feed by a matching
comment. -/
theorem no_body_is_bare_value_witness :
    runBody exEnv (exTx exOther 5000000000 (some (.mk [] []))) = .ok [.noOpcode "5"] ∧
      run exEnv [exTx exOther 5000000000 (some (.mk [] [])),
                 exTx exOther 1500000000 (some (commentCell "7b0c1d9e-token"))]
        = ([.noOpcode "5", .successfulTopUpTON "1.5" "7b0c1d9e-token"], none) :=
  have h := no_body_is_bare_value exEnv (exTx exOther 5000000000 (some (.mk [] [])))
    { SrcAddr := exOther, Amount := 5000000000, Body := some (.mk [] []) } rfl rfl
  ⟨h.2.1,
    (h.2.2.2 [exTx exOther 1500000000 (some (commentCell "7b0c1d9e-token"))]).trans (by decide)⟩

/-- The guard of lines 77-80: a nil `Body` pointer, which the message loader does not produce
(a message without a body carries the empty cell), logs `empty body` and the loop goes on. -/
theorem nil_body_guard (env : Env) (tx : Transaction) (m : InternalMessage)
    (hIn : tx.In = some (.Internal m)) (hBody : m.Body = none) :
    runBody env tx = .ok [.emptyBody] ∧
    ∀ rest : List Transaction,
      run env (tx :: rest) = (.emptyBody :: (run env rest).1, (run env rest).2) := by
  have hrun : runBody env tx = .ok [.emptyBody] := by
    simp [runBody, hIn, hBody]
  refine ⟨hrun, fun rest => ?_⟩
  simp [run, hrun]

/-- C6, at the failing input: a transaction without an incoming message makes the loop body
dereference a nil pointer; nothing is logged for it and no later transaction of the feed is
processed. -/
theorem nil_incoming_message_panics (env : Env) (rest : List Transaction) :
    runBody env { In := none } = .error .nilPointerDereference ∧
      run env ({ In := none } :: rest) = ([], some .nilPointerDereference) := by
  simp [runBody, run]

/-- An incoming message that is not internal logs `not internal message` and the loop goes
on. -/
theorem not_internal_ignored (env : Env) (rest : List Transaction) :
    runBody env { In := some .ExternalIn } = .ok [.notInternalMessage] ∧
      run env ({ In := some .ExternalIn } :: rest)
        = (.notInternalMessage :: (run env rest).1, (run env rest).2) := by
  simp [runBody, run]

/-- C7: for an internal message with a body from which `LoadUInt 32` fails, the transaction
logs the single line `no opcode, ... TON received` with the declared amount, at level Info (not
an error line); nothing else of the body is read. -/
theorem no_opcode_is_bare_value (env : Env) (tx : Transaction) (m : InternalMessage)
    (body : Cell) (e : DecodeError)
    (hIn : tx.In = some (.Internal m)) (hBody : m.Body = some body)
    (hOp : body.BeginParse.LoadUInt 32 = .error e) :
    runBody env tx = .ok [.noOpcode (env.coinsString m.Amount)] ∧
    (LogEvent.noOpcode (env.coinsString m.Amount)).level = .Info := by
  refine ⟨?_, rfl⟩
  simp [runBody, hIn, hBody, hOp]

/-- Witness of C7: a body of 8 bits, declared amount 1.5 TON. -/
theorem no_opcode_is_bare_value_witness :
    (Cell.mk (natToBits 8 0x41) []).BeginParse.LoadUInt 32 = .error .OutOfData ∧
      runBody exEnv (exTx exOther 1500000000 (some (.mk (natToBits 8 0x41) [])))
        = .ok [.noOpcode "1.5"] ∧
      (LogEvent.noOpcode "1.5").level = .Info :=
  ⟨by rfl,
    no_opcode_is_bare_value exEnv (exTx exOther 1500000000 (some (.mk (natToBits 8 0x41) [])))
      { SrcAddr := exOther, Amount := 1500000000, Body := some (.mk (natToBits 8 0x41) []) }
      (.mk (natToBits 8 0x41) []) .OutOfData rfl rfl (by rfl)⟩

/-! ## Jetton transfer notifications (opcode 0x7362d09c) -/

/-- C2, as the code has it: for a notification body (opcode 0x7362d09c) in an internal message
whose source address, as rendered, differs from the rendered configured jetton wallet, the
transaction logs the single line `unknown jetton wallet` with that source address, whatever
slice `s` follows the opcode: no notification field and no forward payload is read. -/
theorem unknown_jetton_wallet_rejected (env : Env) (tx : Transaction) (m : InternalMessage)
    (body : Cell) (s : Slice)
    (hIn : tx.In = some (.Internal m)) (hBody : m.Body = some body)
    (hOp : body.BeginParse.LoadUInt 32 = .ok (0x7362d09c, s))
    (hSrc : env.addrString m.SrcAddr ≠ env.addrString env.jettonWallet) :
    runBody env tx = .ok [.unknownJettonWallet (env.addrString m.SrcAddr)] := by
  simp [runBody, runJettonNotification, hIn, hBody, hOp, hSrc]

/-- Witness of C2 as the code has it: the message comes from another account, while the sender
field of the notification is the configured wallet and the forward payload holds the token. -/
theorem unknown_jetton_wallet_rejected_witness :
    exEnv.addrString exOther ≠ exEnv.addrString exEnv.jettonWallet ∧
      runBody exEnv (exTx exOther 1500000000
          (some (notificationCell 7 2500000000 exWallet (some (commentCell "7b0c1d9e-token")))))
        = .ok [.unknownJettonWallet "0:abcdef"] :=
  ⟨by decide,
    unknown_jetton_wallet_rejected exEnv
      (exTx exOther 1500000000
        (some (notificationCell 7 2500000000 exWallet (some (commentCell "7b0c1d9e-token")))))
      { SrcAddr := exOther, Amount := 1500000000,
        Body := some (notificationCell 7 2500000000 exWallet
          (some (commentCell "7b0c1d9e-token"))) }
      (notificationCell 7 2500000000 exWallet (some (commentCell "7b0c1d9e-token")))
      (notificationSlice 7 2500000000 exWallet (some (commentCell "7b0c1d9e-token")))
      rfl rfl (by rfl) (by decide)⟩

/-- Counterexample to C2: the message comes from the configured wallet, all four fields decode,
the decoded sender field is another account, and the forward payload holds the token. The
transaction is not rejected: the forward payload is read and a successful top up is logged. -/
theorem notification_sender_not_checked :
    Slice.LoadAddr { bits := addrBits exOther ++ [true], refs := [commentCell "7b0c1d9e-token"] }
        = .ok (exOther, { bits := [true], refs := [commentCell "7b0c1d9e-token"] }) ∧
      exOther ≠ exEnv.jettonWallet ∧
      exEnv.addrString exOther ≠ exEnv.addrString exEnv.jettonWallet ∧
      runBody exEnv (exTx exWallet 1500000000
          (some (notificationCell 7 2500000000 exOther (some (commentCell "7b0c1d9e-token")))))
        = .ok [.jtnTransfer "0:abcdef" "2.5" 7, .successfulTopUpJTN "2.5" "7b0c1d9e-token"] ∧
      runBody exEnv (exTx exWallet 1500000000
          (some (notificationCell 7 2500000000 exOther (some (commentCell "7b0c1d9e-token")))))
        ≠ .ok [.unknownJettonWallet "0:abcdef"] := by
  refine ⟨by rfl, by decide, by decide, by decide, by decide⟩

/-- C3, as the code has it: for a notification from the configured wallet whose fields decode
to query id `q`, a 64-bit amount `a` and a sender, and whose forward payload has opcode 0 and
comment `c`, the transaction logs the `[JTN]` line and then `successful top up` when
`c = env.id`, else `unsuccessful top up` with `c`. Both carry the text that
`strconv.FormatFloat(x, 'f', -1, 32)` makes of the double `x = float64(a)/Billion`, not the raw
integer `a`, and nothing of the declared amount `m.Amount`. -/
theorem notification_comment_outcome (env : Env) (tx : Transaction) (m : InternalMessage)
    (body : Cell) (s0 s1 s2 s3 s4 fwd fs : Slice) (q a : Nat) (sender : Address) (c : String)
    (hIn : tx.In = some (.Internal m)) (hBody : m.Body = some body)
    (hOp : body.BeginParse.LoadUInt 32 = .ok (0x7362d09c, s0))
    (hSrc : env.addrString m.SrcAddr = env.addrString env.jettonWallet)
    (hQ : s0.LoadUInt 64 = .ok (q, s1)) (hA : s1.LoadCoins = .ok (a, s2))
    (hS : s2.LoadAddr = .ok (sender, s3)) (hF : s3.LoadMaybeRef = .ok (some fwd, s4))
    (hFO : fwd.LoadUInt 32 = .ok (0, fs)) (hFC : fs.LoadStringSnake = .ok c)
    (ha : a < 2 ^ 64) :
    runBody env tx = .ok [.jtnTransfer (env.addrString sender)
        (env.formatFloat (float64DivBillion a)) q,
      if c = env.id then .successfulTopUpJTN (env.formatFloat (float64DivBillion a)) env.id
      else .unsuccessfulTopUpJTN (env.formatFloat (float64DivBillion a)) c] := by
  have hfmt : amountFmt env a = env.formatFloat (float64DivBillion a) := by
    unfold amountFmt amountFloat
    rw [Nat.mod_eq_of_lt ha]
  by_cases h : c = env.id
  · simp [runBody, runJettonNotification, runForwardPayload, hIn, hBody, hOp, hSrc, hQ, hA, hS,
      hF, hFO, hFC, h, hfmt]
  · simp [runBody, runJettonNotification, runForwardPayload, hIn, hBody, hOp, hSrc, hQ, hA, hS,
      hF, hFO, hFC, h, hfmt]

/-- Witness of C3 as the code has it: 2.5 jettons notified in a message that declares 1.5 TON,
with the comment `hello`. -/
theorem notification_comment_outcome_witness :
    exEnv.addrString exWallet = exEnv.addrString exEnv.jettonWallet ∧
      2500000000 < 2 ^ 64 ∧
      exEnv.formatFloat (float64DivBillion 2500000000) = "2.5" ∧
      Slice.LoadCoins { bits := coinsBits 2500000000 ++ addrBits exOther ++ [true],
                        refs := [commentCell "hello"] }
        = .ok (2500000000, { bits := addrBits exOther ++ [true], refs := [commentCell "hello"] }) ∧
      runBody exEnv (exTx exWallet 1500000000
          (some (notificationCell 7 2500000000 exOther (some (commentCell "hello")))))
        = .ok [.jtnTransfer "0:abcdef" "2.5" 7, .unsuccessfulTopUpJTN "2.5" "hello"] :=
  ⟨by decide, by decide, by decide, by rfl,
    (notification_comment_outcome exEnv
      (exTx exWallet 1500000000
        (some (notificationCell 7 2500000000 exOther (some (commentCell "hello")))))
      { SrcAddr := exWallet, Amount := 1500000000,
        Body := some (notificationCell 7 2500000000 exOther (some (commentCell "hello"))) }
      (notificationCell 7 2500000000 exOther (some (commentCell "hello")))
      (notificationSlice 7 2500000000 exOther (some (commentCell "hello")))
      { bits := coinsBits 2500000000 ++ addrBits exOther ++ [true], refs := [commentCell "hello"] }
      { bits := addrBits exOther ++ [true], refs := [commentCell "hello"] }
      { bits := [true], refs := [commentCell "hello"] }
      { bits := [], refs := [] }
      (commentCell "hello").BeginParse
      { bits := stringToBits "hello", refs := [] }
      7 2500000000 exOther "hello"
      rfl rfl (by rfl) (by decide) (by rfl) (by rfl) (by rfl) (by rfl) (by rfl)
      (by decide) (by decide)).trans (by decide)⟩

/-- Counterexample to C3: a notification of the raw amount 2500000000 with the token as
forward comment logs a successful top up with the text `2.5`, not with the raw integer; the
notification of the raw amount 2500000001 logs exactly the same lines. -/
theorem notification_amount_not_raw :
    runBody exEnv (exTx exWallet 1500000000
          (some (notificationCell 7 2500000000 exOther (some (commentCell "7b0c1d9e-token")))))
        = .ok [.jtnTransfer "0:abcdef" "2.5" 7, .successfulTopUpJTN "2.5" "7b0c1d9e-token"] ∧
      runBody exEnv (exTx exWallet 1500000000
          (some (notificationCell 7 2500000000 exOther (some (commentCell "7b0c1d9e-token")))))
        ≠ .ok [.jtnTransfer "0:abcdef" "2500000000" 7,
               .successfulTopUpJTN "2500000000" "7b0c1d9e-token"] ∧
      runBody exEnv (exTx exWallet 1500000000
          (some (notificationCell 7 2500000001 exOther (some (commentCell "7b0c1d9e-token")))))
        = runBody exEnv (exTx exWallet 1500000000
          (some (notificationCell 7 2500000000 exOther (some (commentCell "7b0c1d9e-token"))))) := by
  refine ⟨by decide, by decide, by decide⟩

/-- C8, as the code has it: for a notification from the configured wallet, a failure of the
query id, of the amount or of the sender address logs the single error line of that field and
nothing of the fields read before it; a failure of the forward payload read comes after the
`[JTN]` line, which has already reported sender, amount and query id. -/
theorem notification_read_failures (env : Env) (tx : Transaction) (m : InternalMessage)
    (body : Cell) (s0 : Slice)
    (hIn : tx.In = some (.Internal m)) (hBody : m.Body = some body)
    (hOp : body.BeginParse.LoadUInt 32 = .ok (0x7362d09c, s0))
    (hSrc : env.addrString m.SrcAddr = env.addrString env.jettonWallet) :
    (∀ e, s0.LoadUInt 64 = .error e → runBody env tx = .ok [.failedToParseQueryId e]) ∧
    (∀ q s1 e, s0.LoadUInt 64 = .ok (q, s1) → s1.LoadCoins = .error e →
      runBody env tx = .ok [.failedToLoadCoins e]) ∧
    (∀ q s1 a s2 e, s0.LoadUInt 64 = .ok (q, s1) → s1.LoadCoins = .ok (a, s2) →
      s2.LoadAddr = .error e → runBody env tx = .ok [.failedToParseSenderAddress e]) ∧
    (∀ q s1 a s2 sender s3 e, s0.LoadUInt 64 = .ok (q, s1) → s1.LoadCoins = .ok (a, s2) →
      s2.LoadAddr = .ok (sender, s3) → s3.LoadMaybeRef = .error e →
      runBody env tx = .ok [.jtnTransfer (env.addrString sender) (amountFmt env a) q,
        .failedToParseForwardPayload e]) := by
  refine ⟨?_, ?_, ?_, ?_⟩
  · intro e hQ
    simp [runBody, runJettonNotification, hIn, hBody, hOp, hSrc, hQ]
  · intro q s1 e hQ hA
    simp [runBody, runJettonNotification, hIn, hBody, hOp, hSrc, hQ, hA]
  · intro q s1 a s2 e hQ hA hS
    simp [runBody, runJettonNotification, hIn, hBody, hOp, hSrc, hQ, hA, hS]
  · intro q s1 a s2 sender s3 e hQ hA hS hF
    simp [runBody, runJettonNotification, hIn, hBody, hOp, hSrc, hQ, hA, hS, hF]

/-- Witness of C8 as the code has it: the presence bit of the forward payload is set but the
body has no reference. -/
theorem notification_read_failures_witness :
    Slice.LoadMaybeRef { bits := [true], refs := [] } = .error .NoMoreReferences ∧
      runBody exEnv (exTx exWallet 1500000000
          (some (.mk (natToBits 32 0x7362d09c ++ notificationBits 7 2500000000 exOther ++ [true]) [])))
        = .ok [.jtnTransfer "0:abcdef" "2.5" 7, .failedToParseForwardPayload .NoMoreReferences] :=
  ⟨by rfl,
    (notification_read_failures exEnv
      (exTx exWallet 1500000000
        (some (.mk (natToBits 32 0x7362d09c ++ notificationBits 7 2500000000 exOther ++ [true]) [])))
      { SrcAddr := exWallet, Amount := 1500000000,
        Body := some (.mk (natToBits 32 0x7362d09c ++ notificationBits 7 2500000000 exOther
          ++ [true]) []) }
      (.mk (natToBits 32 0x7362d09c ++ notificationBits 7 2500000000 exOther ++ [true]) [])
      { bits := notificationBits 7 2500000000 exOther ++ [true], refs := [] }
      rfl rfl (by rfl) (by decide)).2.2.2 7
      { bits := coinsBits 2500000000 ++ addrBits exOther ++ [true], refs := [] }
      2500000000 { bits := addrBits exOther ++ [true], refs := [] } exOther
      { bits := [true], refs := [] } .NoMoreReferences (by rfl) (by rfl) (by rfl) (by rfl)⟩

/-- Counterexample to C8: a notification body that ends after the sender address. The read of
the forward payload fails, and two lines are logged: the `[JTN]` line with the sender, the
amount and the query id decoded before the failure, then the error line. -/
theorem notification_fields_reported_before_failure :
    Slice.LoadMaybeRef { bits := [], refs := [] } = .error .OutOfData ∧
      runBody exEnv (exTx exWallet 1500000000
          (some (truncatedNotificationCell 7 2500000000 exOther)))
        = .ok [.jtnTransfer "0:abcdef" "2.5" 7, .failedToParseForwardPayload .OutOfData] ∧
      runBody exEnv (exTx exWallet 1500000000
          (some (truncatedNotificationCell 7 2500000000 exOther)))
        ≠ .ok [.failedToParseForwardPayload .OutOfData] := by
  refine ⟨by rfl, by decide, by decide⟩

/-- C9: for a notification from the configured wallet whose four fields decode and whose forward
payload is present with an opcode `v` other than 0, the transaction logs the `[JTN]` line and
then `wrong forward payload opcode` with `v`, whatever slice `fs` follows that opcode: no
comment is decoded or compared, and no top-up line, successful or not, is logged. -/
theorem forward_opcode_rejected (env : Env) (tx : Transaction) (m : InternalMessage)
    (body : Cell) (s0 s1 s2 s3 s4 fwd fs : Slice) (q a v : Nat) (sender : Address)
    (hIn : tx.In = some (.Internal m)) (hBody : m.Body = some body)
    (hOp : body.BeginParse.LoadUInt 32 = .ok (0x7362d09c, s0))
    (hSrc : env.addrString m.SrcAddr = env.addrString env.jettonWallet)
    (hQ : s0.LoadUInt 64 = .ok (q, s1)) (hA : s1.LoadCoins = .ok (a, s2))
    (hS : s2.LoadAddr = .ok (sender, s3)) (hF : s3.LoadMaybeRef = .ok (some fwd, s4))
    (hFO : fwd.LoadUInt 32 = .ok (v, fs)) (hv : v ≠ 0) :
    runBody env tx = .ok [.jtnTransfer (env.addrString sender) (amountFmt env a) q,
      .wrongForwardPayloadOpcode v] := by
  simp [runBody, runJettonNotification, runForwardPayload, hIn, hBody, hOp, hSrc, hQ, hA, hS,
    hF, hFO, hv]

/-- Witness of C9: the forward payload is itself a notification (opcode 0x7362d09c) whose own
forward payload holds the token. -/
theorem forward_opcode_rejected_witness :
    (notificationCell 1 1 exWallet (some (commentCell "7b0c1d9e-token"))).BeginParse.LoadUInt 32
        = .ok (0x7362d09c, notificationSlice 1 1 exWallet (some (commentCell "7b0c1d9e-token"))) ∧
      runBody exEnv (exTx exWallet 1500000000
          (some (notificationCell 7 2500000000 exOther
            (some (notificationCell 1 1 exWallet (some (commentCell "7b0c1d9e-token")))))))
        = .ok [.jtnTransfer "0:abcdef" "2.5" 7, .wrongForwardPayloadOpcode 0x7362d09c] :=
  ⟨by rfl,
    forward_opcode_rejected exEnv
      (exTx exWallet 1500000000
        (some (notificationCell 7 2500000000 exOther
          (some (notificationCell 1 1 exWallet (some (commentCell "7b0c1d9e-token")))))))
      { SrcAddr := exWallet, Amount := 1500000000,
        Body := some (notificationCell 7 2500000000 exOther
          (some (notificationCell 1 1 exWallet (some (commentCell "7b0c1d9e-token"))))) }
      (notificationCell 7 2500000000 exOther
        (some (notificationCell 1 1 exWallet (some (commentCell "7b0c1d9e-token")))))
      (notificationSlice 7 2500000000 exOther
        (some (notificationCell 1 1 exWallet (some (commentCell "7b0c1d9e-token")))))
      { bits := coinsBits 2500000000 ++ addrBits exOther ++ [true],
        refs := [notificationCell 1 1 exWallet (some (commentCell "7b0c1d9e-token"))] }
      { bits := addrBits exOther ++ [true],
        refs := [notificationCell 1 1 exWallet (some (commentCell "7b0c1d9e-token"))] }
      { bits := [true],
        refs := [notificationCell 1 1 exWallet (some (commentCell "7b0c1d9e-token"))] }
      { bits := [], refs := [] }
      (notificationCell 1 1 exWallet (some (commentCell "7b0c1d9e-token"))).BeginParse
      (notificationSlice 1 1 exWallet (some (commentCell "7b0c1d9e-token")))
      7 2500000000 0x7362d09c exOther
      rfl rfl (by rfl) (by decide) (by rfl) (by rfl) (by rfl) (by rfl) (by rfl) (by decide)⟩

/-- C10, as the code has it: for a notification from the configured wallet whose four fields
decode, with a 64-bit amount `a`, and whose presence bit for the forward payload is 0, the
transaction logs the `[JTN]` line, with the sender, the text that
`strconv.FormatFloat(x, 'f', -1, 32)` makes of the double `x = float64(a)/Billion` and the query
id, and then the line `[JTN] forward payload is empty`, which has no amount and no comment in
it; no top-up line and no error line is logged. -/
theorem empty_forward_payload_reported (env : Env) (tx : Transaction) (m : InternalMessage)
    (body : Cell) (s0 s1 s2 s3 s4 : Slice) (q a : Nat) (sender : Address)
    (hIn : tx.In = some (.Internal m)) (hBody : m.Body = some body)
    (hOp : body.BeginParse.LoadUInt 32 = .ok (0x7362d09c, s0))
    (hSrc : env.addrString m.SrcAddr = env.addrString env.jettonWallet)
    (hQ : s0.LoadUInt 64 = .ok (q, s1)) (hA : s1.LoadCoins = .ok (a, s2))
    (hS : s2.LoadAddr = .ok (sender, s3)) (hF : s3.LoadMaybeRef = .ok (none, s4))
    (ha : a < 2 ^ 64) :
    runBody env tx = .ok [.jtnTransfer (env.addrString sender)
        (env.formatFloat (float64DivBillion a)) q,
      .forwardPayloadIsEmpty] := by
  have hfmt : amountFmt env a = env.formatFloat (float64DivBillion a) := by
    unfold amountFmt amountFloat
    rw [Nat.mod_eq_of_lt ha]
  simp [runBody, runJettonNotification, runForwardPayload, hIn, hBody, hOp, hSrc, hQ, hA, hS,
    hF, hfmt]

/-- Witness of C10 as the code has it: 2.5 jettons notified without a forward payload, in a
message that declares 1.5 TON. -/
theorem empty_forward_payload_reported_witness :
    Slice.LoadMaybeRef { bits := [false], refs := [] } = .ok (none, { bits := [], refs := [] }) ∧
      2500000000 < 2 ^ 64 ∧
      exEnv.formatFloat (float64DivBillion 2500000000) = "2.5" ∧
      runBody exEnv (exTx exWallet 1500000000 (some (notificationCell 7 2500000000 exOther none)))
        = .ok [.jtnTransfer "0:abcdef" "2.5" 7, .forwardPayloadIsEmpty] :=
  ⟨by rfl, by decide, by decide,
    empty_forward_payload_reported exEnv
      (exTx exWallet 1500000000 (some (notificationCell 7 2500000000 exOther none)))
      { SrcAddr := exWallet, Amount := 1500000000,
        Body := some (notificationCell 7 2500000000 exOther none) }
      (notificationCell 7 2500000000 exOther none)
      (notificationSlice 7 2500000000 exOther none)
      { bits := coinsBits 2500000000 ++ addrBits exOther ++ [false], refs := [] }
      { bits := addrBits exOther ++ [false], refs := [] }
      { bits := [false], refs := [] }
      { bits := [], refs := [] }
      7 2500000000 exOther
      rfl rfl (by rfl) (by decide) (by rfl) (by rfl) (by rfl) (by rfl) (by decide)⟩

/-- Counterexample to C10: two notifications without a forward payload that differ only in the
decoded amount, 2500000000 and 2500000001, log exactly the same two lines, so what is logged
does not carry the decoded amount; the line logged for the empty forward payload is
`[JTN] forward payload is empty`, with nothing in it, and the amount text `2.5` is on the
`[JTN]` line before it. -/
theorem empty_forward_amount_not_carried :
    Slice.LoadCoins { bits := coinsBits 2500000001 ++ addrBits exOther ++ [false], refs := [] }
        = .ok (2500000001, { bits := addrBits exOther ++ [false], refs := [] }) ∧
      runBody exEnv (exTx exWallet 1500000000 (some (notificationCell 7 2500000000 exOther none)))
        = .ok [.jtnTransfer "0:abcdef" "2.5" 7, .forwardPayloadIsEmpty] ∧
      runBody exEnv (exTx exWallet 1500000000 (some (notificationCell 7 2500000001 exOther none)))
        = .ok [.jtnTransfer "0:abcdef" "2.5" 7, .forwardPayloadIsEmpty] := by
  refine ⟨by rfl, by decide, by decide⟩

end TonWatcher
